import Mathlib

/-!
# KubeML training coordinator — verification of the spec against the code

Shallow embedding of the per-job training coordinator of the kubeML
repository (package `train`, file `ml/pkg/train/job.go`, plus the CLI
validation in `ml/pkg/kubeml-cli/cmd/infer.go` and the legacy parameter
server loop `serveTrainJob`).

The embedding is sequential: the controller (`TrainJob.Train`), the
Merger goroutine (`TrainJob.mergeModel`) and the CLI validator are
translated into pure Lean functions that produce explicit event traces,
so that the ordering, multiplicity and error-handling properties of the
spec can be stated and settled against the code.
-/

namespace KubeML

/-! ## The Merger (`TrainJob.mergeModel`, `answerFunctions`)

`mergeModel` runs one inner loop per epoch.  Each iteration of the inner
loop is one rendezvous barrier: the Go code clears the model, waits on
the countdown barrier `wgIteration`, closes and drains `finishCh`,
averages and saves, and then either reports an error on `errChan`,
signals `merged` (when no workers remain), or re-arms the barrier for
the workers that still have rounds to run.

Channels are modelled by identity: a worker response channel
(`respChan`) is an `Option Nat` — `none` is Go's nil channel of a
finished worker.  Every externally visible action of the Merger is
recorded as a `MergerEvent` in program order. -/

/-- Result sent back to the training functions after a merge
(`MergeSucceeded` / `MergeFailed` in the Go source). -/
inductive MergeResult
  | MergeSucceeded
  | MergeFailed
deriving DecidableEq, Repr

/-- `finishNotification`: what a worker sends on `finishCh` when it has
finished its `K` local steps — its id and its response channel.  A `none`
response channel means the worker has no further rounds this epoch. -/
structure finishNotification where
  funcId : Int
  respChan : Option Nat
deriving DecidableEq, Repr

/-- Which failure the Merger reports on `errChan`. -/
inductive MergeErr
  | noFunctions
  | avgErr
  | saveErr
deriving DecidableEq, Repr

/-- Externally visible actions of the Merger, in program order. -/
inductive MergerEvent
  | clearModel
  | waitBarrier
  | closeFinish
  | average (count : Nat)
  | save
  | sendErr (e : MergeErr)
  | sendMerged
  | resetBarrier (remaining : Int)
  | newFinishCh (cap : Int)
  | answer (result : MergeResult) (channels : List (Option Nat))
deriving DecidableEq, Repr

/-- `answerFunctions` (job.go): responds with `result` on every non-nil
channel, skipping the nil channels of completely finished workers.  The
return value is the list of (channel, value) sends actually performed. -/
def answerFunctions (result : MergeResult) (channels : List (Option Nat)) :
    List (Nat × MergeResult) :=
  channels.filterMap (fun ch => ch.map (fun c => (c, result)))

/-- One barrier of the Merger inner loop, as an input: the notifications
drained from `finishCh` after `wgIteration` reached zero, whether
`Average` and `Save` succeed, and the value of the atomic counter
`finishedFuncs` read after the save. -/
structure BarrierInput where
  notifs : List finishNotification
  avgOk : Bool
  saveOk : Bool
  finished : Nat
deriving DecidableEq, Repr

/-- One iteration of the inner loop of `mergeModel` (job.go): clear the
model, wait for all participants, close and drain `finishCh`, merge,
then answer the participants.  Returns the events of this barrier and
whether the inner loop `break`s (end of the epoch for the Merger). -/
def runBarrier (parallelism : Nat) (b : BarrierInput) :
    List MergerEvent × Bool :=
  let funcs : List Int := b.notifs.map (·.funcId)
  let channels : List (Option Nat) := b.notifs.map (·.respChan)
  let pre : List MergerEvent :=
    [.clearModel, .waitBarrier, .closeFinish]
  if funcs.length = 0 then
    (pre ++ [.sendErr .noFunctions], true)
  else if b.avgOk = false then
    (pre ++ [.average funcs.length, .answer .MergeFailed channels,
             .sendErr .avgErr], true)
  else if b.saveOk = false then
    (pre ++ [.average funcs.length, .save, .answer .MergeFailed channels,
             .sendErr .saveErr], true)
  else
    let remaining : Int := (parallelism : Int) - (b.finished : Int)
    if remaining = 0 then
      (pre ++ [.average funcs.length, .save, .sendMerged], true)
    else
      (pre ++ [.average funcs.length, .save, .resetBarrier remaining,
               .newFinishCh remaining,
               .answer .MergeSucceeded channels], false)

/-- The per-epoch inner loop of `mergeModel`: barriers are consumed in
order until one of them `break`s (merge error, no participants, or the
final barrier that signals `merged`). -/
def mergerEpoch (parallelism : Nat) : List BarrierInput → List MergerEvent
  | [] => []
  | b :: rest =>
    let (evs, brk) := runBarrier parallelism b
    if brk then evs else evs ++ mergerEpoch parallelism rest

/-- Recogniser for the `merged` signal in a Merger trace. -/
def isMerged : MergerEvent → Bool
  | .sendMerged => true
  | _ => false

/-- Number of `merged` signals sent to the controller in a trace. -/
def countMerged (evs : List MergerEvent) : Nat :=
  evs.countP isMerged

/-- A barrier whose merge succeeds and which is not the final one:
participants are present, `Average` and `Save` succeed, and some workers
still have rounds to run. -/
def intermediateBarrier (parallelism : Nat) (b : BarrierInput) : Prop :=
  b.notifs ≠ [] ∧ b.avgOk = true ∧ b.saveOk = true ∧
    (parallelism : Int) - (b.finished : Int) ≠ 0

/-- The final barrier of a successful epoch: participants are present,
`Average` and `Save` succeed, and no worker remains. -/
def finalBarrier (parallelism : Nat) (b : BarrierInput) : Prop :=
  b.notifs ≠ [] ∧ b.avgOk = true ∧ b.saveOk = true ∧
    (parallelism : Int) - (b.finished : Int) = 0

/-- An epoch in which every barrier merges successfully: all barriers
but the last are `intermediateBarrier`s and the last is a
`finalBarrier`. -/
def successfulEpoch (parallelism : Nat) : List BarrierInput → Prop
  | [] => False
  | [b] => finalBarrier parallelism b
  | b :: rest =>
      intermediateBarrier parallelism b ∧ successfulEpoch parallelism rest

instance (p : Nat) (b : BarrierInput) : Decidable (intermediateBarrier p b) := by
  unfold intermediateBarrier; infer_instance

instance (p : Nat) (b : BarrierInput) : Decidable (finalBarrier p b) := by
  unfold finalBarrier; infer_instance

/-! ## The controller (`TrainJob.Train`)

The main loop of `Train` (job.go, `main:` label) is embedded as a
fuel-indexed recursion: the fuel is the number of loop iterations still
allowed by `epoch <= Parameters.Epochs`, and the epoch counter is
threaded explicitly.  The interactions of the controller with its
environment — the outcome of `train()` (including asynchronous merge
errors polled from `errChan`), scheduler renegotiation, validation
results, the external stop signal, and the pseudo-random tie-break of
the final `select` — are an explicit environment, so the theorems are
quantified over every possible run.

Channel state that matters for the claims is explicit: `accBuf` is the
number of values buffered in `accuracyCh` (a channel of capacity 1), and
a send on it is recorded as blocking whenever the buffer is already
full. -/

/-- Externally visible actions of the controller, in program order. -/
inductive TrainEvent
  | trainEpoch (e : Nat)
  | updateJobCall (e : Nat)
  | schedulerWarn (e : Nat)
  | recvScheduler (e : Nat) (parallelism : Nat)
  | recvMerged (e : Nat)
  | validateEv (e : Nat)
  | goalCheck (e : Nat)
  | breakStopEv (e : Nat)
  | breakAccEv (e : Nat)
  | finalValidate
  | saveHistory
  | clearTensors
  | closePool
  | jobFinished (err : Option String)
deriving DecidableEq, Repr

/-- Per-epoch behaviour of the controller's environment. -/
structure EpochEnv where
  /-- result of `job.train()` for this epoch: an invocation error or a
  merge error polled from `errChan` (`none` = success). -/
  trainErr : Option String
  /-- whether `job.scheduler.UpdateJob` returns an error. -/
  schedErr : Bool
  /-- parallelism in the `JobState` received on `schedulerCh`. -/
  schedParallelism : Nat
  /-- whether `invokeValFunctions` or `updateValidationMetrics` fails
  during this epoch's `validate()`. -/
  valErr : Bool
  /-- mean accuracy computed by this epoch's `validate()`. -/
  valAcc : ℚ
  /-- tie-break of the `select` when both `stopChan` and `accuracyCh`
  are ready: `true` picks the stop case. -/
  pickStop : Bool
deriving DecidableEq

/-- Whole-job environment of a run of `Train`. -/
structure JobEnv where
  /-- result of `job.init()` (`none` = success). -/
  initErr : Option String
  /-- behaviour of each epoch (indexed by the epoch counter). -/
  epochEnv : Nat → EpochEnv
  /-- epoch boundary from which a value is available on `stopChan`
  (`none` = no force stop is ever sent). -/
  stopAt : Option Nat
  /-- whether the final, post-loop `validate()` fails. -/
  finalValErr : Bool
  /-- accuracy computed by the final, post-loop `validate()`. -/
  finalValAcc : ℚ

/-- Static configuration of the job (`extractTaskSettings`). -/
structure Cfg where
  epochs : Nat
  static : Bool
  validateEvery : Nat
  goalAccuracy : ℚ
  debugEnv : Bool
  limitParallelism : Bool
  initialParallelism : Nat

/-- Mutable state of the controller. -/
structure St where
  parallelism : Nat
  accuracyReached : Bool
  /-- values currently buffered in `accuracyCh` (capacity 1). -/
  accBuf : Nat
  /-- total sends ever performed on `accuracyCh`. -/
  sendCount : Nat
  /-- set if a send on `accuracyCh` ever found the buffer full
  (such a send would block its sender). -/
  blockedSend : Bool
  exitErr : Option String
  events : List TrainEvent

/-- Append one event to the trace. -/
def push (st : St) (ev : TrainEvent) : St :=
  { st with events := st.events ++ [ev] }

/-- A send on `accuracyCh`: it blocks the sender iff the one-slot
buffer is already occupied. -/
def sendAccuracy (st : St) : St :=
  { st with
    accBuf := st.accBuf + 1
    sendCount := st.sendCount + 1
    blockedSend := st.blockedSend || decide (1 ≤ st.accBuf) }

/-- `job.validate()`: invoke the validation functions; on success, if
the mean accuracy reached the goal, notify on `accuracyCh`. -/
def validateStep (goal : ℚ) (valErr : Bool) (acc : ℚ) (st : St) : St :=
  if valErr then st
  else if goal ≤ acc then sendAccuracy st else st

/-- How an iteration of the main loop ends. -/
inductive LoopExit
  | completed
  | stoppedExit
  | accuracyExit
  | errorExit
deriving DecidableEq, Repr

/-- Whether a value is ready on `stopChan` at the `select` of epoch
`e`. -/
def stopReady (env : JobEnv) (e : Nat) : Bool :=
  match env.stopAt with
  | some k => decide (k ≤ e)
  | none => false

/-- Trigger validation when configured by `validateEvery` (never on
the last epoch). -/
def maybeValidate (cfg : Cfg) (env : JobEnv) (e : Nat) (st : St) : St :=
  if cfg.validateEvery ≠ 0 ∧ e % cfg.validateEvery = 0 ∧ e ≠ cfg.epochs then
    validateStep cfg.goalAccuracy (env.epochEnv e).valErr
      (env.epochEnv e).valAcc (push st (.validateEv e))
  else st

/-- The non-blocking `select` over `stopChan` / `accuracyCh` /
`default` at the end of the loop body. -/
def selectStep (env : JobEnv) (e : Nat) (pickStop : Bool) (st : St) :
    St × Option LoopExit :=
  let st := push st (.goalCheck e)
  let accReady : Bool := decide (0 < st.accBuf)
  if stopReady env e && (pickStop || !accReady) then
    ({ push st (.breakStopEv e) with
        accuracyReached := true
        exitErr := some "job was force stopped" }, some .stoppedExit)
  else if accReady then
    ({ push st (.breakAccEv e) with
        accuracyReached := true
        accBuf := st.accBuf - 1 }, some .accuracyExit)
  else (st, none)

/-- The parallelism update after a scheduler response, suppressed by
the debug / limit overrides. -/
def updateParallelism (cfg : Cfg) (p : Nat) (st : St) : St :=
  if cfg.debugEnv = false ∧ cfg.limitParallelism = false then
    { st with parallelism := p }
  else st

/-- Tail of the loop body after the scheduler block: receive `merged`,
run the configured validation, then the non-blocking `select`. -/
def afterSched (cfg : Cfg) (env : JobEnv) (e : Nat) (st : St) :
    St × Option LoopExit :=
  selectStep env e (env.epochEnv e).pickStop
    (maybeValidate cfg env e (push st (.recvMerged e)))

/-- One iteration of the main loop of `Train` at epoch `e`:
`train()`, the optional scheduler renegotiation (whose failure
`continue`s to the next epoch), then `afterSched`.  The second
component is `none` when the loop proceeds to the next epoch. -/
def epochBody (cfg : Cfg) (env : JobEnv) (e : Nat) (st : St) :
    St × Option LoopExit :=
  let ee := env.epochEnv e
  let st := push st (.trainEpoch e)
  match ee.trainErr with
  | some m => ({ st with exitErr := some m }, some .errorExit)
  | none =>
    if cfg.static = false ∧ e < cfg.epochs then
      let st := push st (.updateJobCall e)
      if ee.schedErr then
        (push st (.schedulerWarn e), none)
      else
        afterSched cfg env e
          (updateParallelism cfg ee.schedParallelism
            (push st (.recvScheduler e ee.schedParallelism)))
    else afterSched cfg env e st

/-- The main loop, with `fuel` iterations remaining (`fuel` starts at
`Parameters.Epochs` and the epoch counter at 1). -/
def trainLoop (cfg : Cfg) (env : JobEnv) :
    Nat → Nat → St → St × LoopExit
  | 0, _, st => (st, .completed)
  | fuel + 1, e, st =>
    match epochBody cfg env e st with
    | (st', none) => trainLoop cfg env fuel (e + 1) st'
    | (st', some ex) => (st', ex)

/-- The deferred teardown of `Train`: delete the job's tensors, close
the redis pool, and send `JobFinished` with the recorded exit error. -/
def teardown (st : St) : St :=
  push (push (push st .clearTensors) .closePool) (.jobFinished st.exitErr)

/-- Initial controller state. -/
def initSt (cfg : Cfg) : St :=
  { parallelism := cfg.initialParallelism
    accuracyReached := false
    accBuf := 0
    sendCount := 0
    blockedSend := false
    exitErr := none
    events := [] }

/-- The post-loop tail of `Train`: on a `train()` error the function
returns at once (only the deferred teardown runs); otherwise the final
validation runs unless the goal was already reached, and the history is
persisted — followed, in every case, by the deferred teardown. -/
def finishRun (cfg : Cfg) (env : JobEnv) (st : St) (ex : LoopExit) : St :=
  match ex with
  | .errorExit => teardown st
  | _ =>
    teardown (push
      (if st.accuracyReached = false then
        validateStep cfg.goalAccuracy env.finalValErr env.finalValAcc
          (push st .finalValidate)
      else st) .saveHistory)

/-- `TrainJob.Train`: init, the main loop, the final validation when
the goal was not already reached, history persistence, and the
unconditional deferred teardown. -/
def trainRun (cfg : Cfg) (env : JobEnv) : St :=
  match env.initErr with
  | some m => teardown { initSt cfg with exitErr := some m }
  | none =>
    let r := trainLoop cfg env cfg.epochs 1 (initSt cfg)
    finishRun cfg env r.1 r.2

/-- Number of training epochs executed in a controller trace. -/
def countTrainEpochs (evs : List TrainEvent) : Nat :=
  evs.countP (fun ev => match ev with | .trainEpoch _ => true | _ => false)

/-- A concrete two-epoch dynamic configuration (no intermediate
validation), used to evaluate concrete runs. -/
def cfgTwo : Cfg :=
  { epochs := 2, static := false, validateEvery := 0, goalAccuracy := 100
    debugEnv := false, limitParallelism := false, initialParallelism := 2 }

/-- Like `cfgTwo` but validating every epoch. -/
def cfgVal : Cfg :=
  { epochs := 2, static := false, validateEvery := 1, goalAccuracy := 100
    debugEnv := false, limitParallelism := false, initialParallelism := 2 }

/-- A benign environment: every call succeeds, the scheduler returns
parallelism 4, no accuracy goal is reached and no stop is sent. -/
def envSchedOk : JobEnv :=
  { initErr := none
    epochEnv := fun _ =>
      { trainErr := none, schedErr := false, schedParallelism := 4
        valErr := false, valAcc := 0, pickStop := false }
    stopAt := none, finalValErr := false, finalValAcc := 0 }

/-- Like `envSchedOk`, except that `UpdateJob` fails at epoch 1. -/
def envSchedFail : JobEnv :=
  { initErr := none
    epochEnv := fun e =>
      { trainErr := none, schedErr := decide (e = 1), schedParallelism := 4
        valErr := false, valAcc := 0, pickStop := false }
    stopAt := none, finalValErr := false, finalValAcc := 0 }

/-- Like `envSchedOk`, except that a force stop is delivered at the
boundary of epoch 1. -/
def envStop : JobEnv :=
  { initErr := none
    epochEnv := fun _ =>
      { trainErr := none, schedErr := false, schedParallelism := 4
        valErr := false, valAcc := 0, pickStop := true }
    stopAt := some 1, finalValErr := false, finalValAcc := 0 }


/-! ## The legacy parameter-server loop (`ParameterServer.serveTrainJob`)

`serveTrainJob` drives the older per-job epoch loop: invoke the train
functions, wait on `epochChan` for the epoch to complete, save the
model, kick off validation, and negotiate new parallelism with the
scheduler (a scheduler error is fatal: `logger.Fatal` terminates the
process). -/

/-- Externally visible actions of the parameter-server loop. -/
inductive PsEvent
  | invokeTrain (e : Nat) (n : Nat)
  | recvEpochChan (e : Nat)
  | saveModel (e : Nat)
  | invokeVal (e : Nat)
  | schedRequest (e : Nat) (n : Nat)
  | recvSchedResp (e : Nat) (n : Nat)
  | fatalExit (e : Nat)
  | finishLog
deriving DecidableEq, Repr

/-- Environment of a `serveTrainJob` run: the scheduler's response for
each epoch (`none` models `resp.err != nil`, which is fatal). -/
structure PsEnv where
  schedResp : Nat → Option Nat
  initParallelism : Nat

/-- Modelled from the spec: the parameter server's inbound API (the
`Serve` handlers, which are not part of the sources given here)
receives the finish notifications of the workers, updates the model in
parallel, signals `epochChan` when the epoch is complete and advances
the epoch counter to the next epoch.  Per the spec, the epoch loop
"executes exactly `Parameters.Epochs` training epochs", i.e. the
counter advances by one each time an epoch completes. -/
def psEpochAdvance (e : Nat) : Nat := e + 1

/-- The loop of `serveTrainJob` (`for ps.epoch <= ps.req.Epochs`), with
`fuel` iterations remaining. -/
def psLoop (env : PsEnv) : Nat → Nat → Nat → List PsEvent
  | 0, _, _ => [.finishLog]
  | fuel + 1, e, par =>
    let evs : List PsEvent :=
      [.invokeTrain e par, .recvEpochChan e, .saveModel e, .invokeVal e,
       .schedRequest e par]
    match env.schedResp e with
    | none => evs ++ [.fatalExit e]
    | some p' =>
      evs ++ [.recvSchedResp e p'] ++ psLoop env fuel (psEpochAdvance e) p'

/-- `ParameterServer.serveTrainJob` for a request with `epochs` epochs,
starting at epoch 1. -/
def serveTrainJob (epochs : Nat) (env : PsEnv) : List PsEvent :=
  psLoop env epochs 1 env.initParallelism

/-- Number of train-function fan-outs (epochs run) in a
parameter-server trace. -/
def countPsEpochs (evs : List PsEvent) : Nat :=
  evs.countP (fun ev => match ev with | .invokeTrain _ _ => true | _ => false)

/-- A benign parameter-server environment: the scheduler always
answers with parallelism 4. -/
def psEnvOk : PsEnv :=
  { schedResp := fun _ => some 4, initParallelism := 2 }

/-! ## CLI request validation (`validateTrainRequest`, infer.go / train cmd)

The command builds an `api.TrainRequest` from its flags and validates
it before submission, aggregating every failed check into one
multi-error.  The two existence helpers call external services; their
observable behaviour in the source is: `datasetExists` returns
`(true, nil)` when the lookup succeeds and `(false, err)` when it
fails, and likewise `functionExists` (with an extra failure mode for
building the fission client).  They are embedded with their error
outcomes as boolean oracles. -/

/-- The relevant fields of `api.TrainRequest` as built by the `train`
command (the package-level flag variables coincide with the request
fields there). -/
structure TrainRequest where
  batchSize : Int
  epochs : Int
  lr : ℚ
  dataset : String
  functionName : String

/-- `maxBatchSize` (infer.go). -/
def maxBatchSize : Int := 1024

/-- `datasetExists`: `(exists, hasErr)`; a failed `Datasets().Get`
yields `(false, true)`, success yields `(true, false)`. -/
def datasetExists (getErr : Bool) : Bool × Bool :=
  if getErr then (false, true) else (true, false)

/-- `functionExists`: `(exists, hasErr)`; a failed `MakeFissionClient`
or a failed function lookup yields `(false, true)`, success yields
`(true, false)`. -/
def functionExists (mkClientErr getFnErr : Bool) : Bool × Bool :=
  if mkClientErr then (false, true)
  else if getFnErr then (false, true)
  else (true, false)

/-- Message for an out-of-range batch size. -/
def batchMsg : String := "batch size should be between 0 and 1024"

/-- Message for a non-positive epoch count. -/
def epochsMsg : String := "epochs should be a positive value"

/-- Message for a non-positive learning rate. -/
def lrMsg : String := "learning rate should be bigger than zero"

/-- Message for a missing dataset. -/
def datasetMsg (d : String) : String :=
  "dataset " ++ d ++ " does not exist"

/-- Message for a missing function. -/
def functionMsg (f : String) : String :=
  "function " ++ f ++ " does not exist"

/-- `validateTrainRequest`: run the five checks in source order,
appending a message to the multi-error for each failed one;
`ErrorOrNil` returns `none` when no message was appended. -/
def validateTrainRequest (req : TrainRequest)
    (dsGetErr mkClientErr getFnErr : Bool) : Option (List String) :=
  let e : List String := []
  let e := if req.batchSize ≤ 0 ∨ maxBatchSize < req.batchSize
           then e ++ [batchMsg] else e
  let e := if req.epochs ≤ 0 then e ++ [epochsMsg] else e
  let e := if req.lr ≤ 0 then e ++ [lrMsg] else e
  let ds := datasetExists dsGetErr
  let e := if ds.2 = true ∨ ds.1 = false
           then e ++ [datasetMsg req.dataset] else e
  let fn := functionExists mkClientErr getFnErr
  let e := if fn.2 = true ∨ fn.1 = false
           then e ++ [functionMsg req.functionName] else e
  if e.isEmpty then none else some e

instance successfulEpochDec (p : Nat) :
    (bs : List BarrierInput) → Decidable (successfulEpoch p bs)
  | [] => by unfold successfulEpoch; infer_instance
  | [b] => by unfold successfulEpoch; infer_instance
  | b :: b' :: rest =>
      have : Decidable (successfulEpoch p (b' :: rest)) :=
        successfulEpochDec p (b' :: rest)
      by unfold successfulEpoch; infer_instance

/-! ## Theorems -/

/-! ### Merger lemmas -/

/-- The sends performed by `answerFunctions` are exactly one send of
`res` per non-`none` channel, in order. -/
theorem answerFunctions_notifs (res : MergeResult)
    (notifs : List finishNotification) :
    answerFunctions res (notifs.map (·.respChan)) =
      (notifs.filterMap (·.respChan)).map (fun c => (c, res)) := by
  induction notifs with
  | nil => rfl
  | cons n rest ih =>
    cases h : n.respChan <;>
      simp [answerFunctions, List.filterMap_cons, h] <;>
      simpa [answerFunctions] using ih

/-- `runBarrier` on a successful non-final barrier: merge, re-arm the
primitives with the remaining count, answer the participants, and do
not break out of the epoch. -/
theorem runBarrier_nonfinal_eq (p : Nat) (b : BarrierInput)
    (h1 : b.notifs ≠ []) (h2 : b.avgOk = true) (h3 : b.saveOk = true)
    (h4 : (p : Int) - (b.finished : Int) ≠ 0) :
    runBarrier p b =
      ([.clearModel, .waitBarrier, .closeFinish,
        .average b.notifs.length, .save,
        .resetBarrier ((p : Int) - (b.finished : Int)),
        .newFinishCh ((p : Int) - (b.finished : Int)),
        .answer .MergeSucceeded (b.notifs.map (·.respChan))], false) := by
  unfold runBarrier
  simp [h1, h2, h3, h4]

/-- `runBarrier` on the final successful barrier: merge, signal
`merged`, and break out of the epoch. -/
theorem runBarrier_final_eq (p : Nat) (b : BarrierInput)
    (h1 : b.notifs ≠ []) (h2 : b.avgOk = true) (h3 : b.saveOk = true)
    (h4 : (p : Int) - (b.finished : Int) = 0) :
    runBarrier p b =
      ([.clearModel, .waitBarrier, .closeFinish,
        .average b.notifs.length, .save, .sendMerged], true) := by
  unfold runBarrier
  simp [h1, h2, h3, h4]

/-! ### C3 / C4 / C6 -/

/-- C3 (counterexample): an epoch whose first barrier has participants
but whose `Average` fails delivers the `merged` signal zero times, not
exactly once — the Merger reports on `errChan` and breaks without
signalling `merged`. -/
theorem C3_failed_epoch_merged_zero :
    countMerged
      (mergerEpoch 2 [⟨[⟨0, some 0⟩, ⟨1, some 1⟩], false, true, 0⟩]) = 0 := by
  decide

/-- C3 (amended): in every epoch all of whose barriers merge
successfully — nonempty participants and successful `Average` and
`Save` at each barrier, workers remaining at every barrier but the
last, and none remaining at the last — exactly one signal is sent on
`merged`, on the final barrier release when
`remaining = parallelism - finishedFuncs` is zero.  (On a barrier
failure the Merger instead reports on `errChan` and sends nothing on
`merged`.) -/
theorem C3_merged_exactly_once_successful (p : Nat)
    (bs : List BarrierInput) (h : successfulEpoch p bs) :
    countMerged (mergerEpoch p bs) = 1 := by
  induction bs with
  | nil => exact h.elim
  | cons b rest ih =>
    cases rest with
    | nil =>
      simp only [successfulEpoch] at h
      obtain ⟨h1, h2, h3, h4⟩ := h
      unfold mergerEpoch
      rw [runBarrier_final_eq p b h1 h2 h3 h4]
      simp [countMerged, isMerged]
    | cons b' rest' =>
      simp only [successfulEpoch] at h
      obtain ⟨⟨h1, h2, h3, h4⟩, hrest⟩ := h
      unfold mergerEpoch
      rw [runBarrier_nonfinal_eq p b h1 h2 h3 h4]
      simpa [countMerged, isMerged, List.countP_append] using ih hrest

/-- C3 (witness). -/
theorem C3_merged_exactly_once_successful_witness :
    countMerged
      (mergerEpoch 2
        [⟨[⟨0, some 0⟩, ⟨1, none⟩], true, true, 1⟩,
         ⟨[⟨0, some 0⟩], true, true, 2⟩]) = 1 :=
  C3_merged_exactly_once_successful 2 _ (by decide)

/-- C4 (counterexample): the Merger calls `Model.Clear()` *before*
waiting on `wgIteration` — in the trace of a concrete successful
barrier, `clearModel` occurs strictly before `waitBarrier`, so `Clear`
is invoked before all participants of the barrier have checked in. -/
theorem C4_clear_before_wait :
    ((runBarrier 2 ⟨[⟨0, some 0⟩, ⟨1, some 1⟩], true, true, 2⟩).1.indexOf
        .clearModel <
     (runBarrier 2 ⟨[⟨0, some 0⟩, ⟨1, some 1⟩], true, true, 2⟩).1.indexOf
        .waitBarrier) := by
  decide

/-- C4 (amended): at every barrier whose merge succeeds, the Merger
performs its steps in this order: first `Model.Clear()`, then the wait
for the countdown barrier `wgIteration` to reach zero, then closing and
draining `finishCh`, then `Average(model, len(funcs))`, then
`Save()`. -/
theorem C4_barrier_step_order (p : Nat) (b : BarrierInput)
    (h1 : b.notifs ≠ []) (h2 : b.avgOk = true) (h3 : b.saveOk = true) :
    (runBarrier p b).1.take 5 =
      [.clearModel, .waitBarrier, .closeFinish,
       .average b.notifs.length, .save] := by
  unfold runBarrier
  simp only [h2, h3]
  simp [h1]
  split <;> simp

/-- C4 (witness). -/
theorem C4_barrier_step_order_witness :
    (runBarrier 3 ⟨[⟨0, some 0⟩, ⟨1, none⟩], true, true, 1⟩).1.take 5 =
      [.clearModel, .waitBarrier, .closeFinish, .average 2, .save] :=
  C4_barrier_step_order 3 _ (by decide) rfl rfl

/-- C6: at every non-final barrier release
(`remaining = parallelism - finishedFuncs > 0`) after a successful
merge, the Merger resets `wgIteration` with count `remaining`,
allocates a brand-new `finishCh` with buffer capacity `remaining`,
answers `MergeSucceeded` on exactly the non-nil response channels
drained at that barrier (nil channels of finished workers receive
nothing), and does not signal `merged`. -/
theorem C6_nonfinal_rearm (p : Nat) (b : BarrierInput)
    (h1 : b.notifs ≠ []) (h2 : b.avgOk = true) (h3 : b.saveOk = true)
    (h4 : 0 < (p : Int) - (b.finished : Int)) :
    runBarrier p b =
      ([.clearModel, .waitBarrier, .closeFinish,
        .average b.notifs.length, .save,
        .resetBarrier ((p : Int) - (b.finished : Int)),
        .newFinishCh ((p : Int) - (b.finished : Int)),
        .answer .MergeSucceeded (b.notifs.map (·.respChan))], false) ∧
    answerFunctions .MergeSucceeded (b.notifs.map (·.respChan)) =
      (b.notifs.filterMap (·.respChan)).map
        (fun c => (c, MergeResult.MergeSucceeded)) ∧
    MergerEvent.sendMerged ∉ (runBarrier p b).1 := by
  have h4' : (p : Int) - (b.finished : Int) ≠ 0 := by omega
  refine ⟨runBarrier_nonfinal_eq p b h1 h2 h3 h4',
          answerFunctions_notifs _ _, ?_⟩
  rw [runBarrier_nonfinal_eq p b h1 h2 h3 h4']
  simp

/-- C6 (witness). -/
theorem C6_nonfinal_rearm_witness :
    (runBarrier 3 ⟨[⟨0, some 5⟩, ⟨1, none⟩], true, true, 1⟩ =
      ([.clearModel, .waitBarrier, .closeFinish, .average 2, .save,
        .resetBarrier 2, .newFinishCh 2,
        .answer .MergeSucceeded [some 5, none]], false) ∧
     answerFunctions .MergeSucceeded [some 5, none] =
       [(5, MergeResult.MergeSucceeded)] ∧
     MergerEvent.sendMerged ∉
       (runBarrier 3 ⟨[⟨0, some 5⟩, ⟨1, none⟩], true, true, 1⟩).1) :=
  C6_nonfinal_rearm 3 ⟨[⟨0, some 5⟩, ⟨1, none⟩], true, true, 1⟩
    (by decide) rfl rfl (by decide)

/-! ### Controller lemmas -/


@[simp] theorem push_accBuf (st : St) (ev : TrainEvent) : (push st ev).accBuf = st.accBuf := rfl
@[simp] theorem push_sendCount (st : St) (ev : TrainEvent) : (push st ev).sendCount = st.sendCount := rfl
@[simp] theorem push_blockedSend (st : St) (ev : TrainEvent) : (push st ev).blockedSend = st.blockedSend := rfl
@[simp] theorem push_accuracyReached (st : St) (ev : TrainEvent) : (push st ev).accuracyReached = st.accuracyReached := rfl
@[simp] theorem push_exitErr (st : St) (ev : TrainEvent) : (push st ev).exitErr = st.exitErr := rfl
@[simp] theorem push_events (st : St) (ev : TrainEvent) : (push st ev).events = st.events ++ [ev] := rfl

@[simp] theorem sendAccuracy_accBuf (st : St) : (sendAccuracy st).accBuf = st.accBuf + 1 := rfl
@[simp] theorem sendAccuracy_sendCount (st : St) : (sendAccuracy st).sendCount = st.sendCount + 1 := rfl
@[simp] theorem sendAccuracy_blockedSend (st : St) :
    (sendAccuracy st).blockedSend = (st.blockedSend || decide (1 ≤ st.accBuf)) := rfl
@[simp] theorem sendAccuracy_accuracyReached (st : St) : (sendAccuracy st).accuracyReached = st.accuracyReached := rfl
@[simp] theorem sendAccuracy_exitErr (st : St) : (sendAccuracy st).exitErr = st.exitErr := rfl
@[simp] theorem sendAccuracy_events (st : St) : (sendAccuracy st).events = st.events := rfl

@[simp] theorem updateParallelism_accBuf (cfg : Cfg) (p : Nat) (st : St) : (updateParallelism cfg p st).accBuf = st.accBuf := by
  unfold updateParallelism; split <;> rfl
@[simp] theorem updateParallelism_sendCount (cfg : Cfg) (p : Nat) (st : St) : (updateParallelism cfg p st).sendCount = st.sendCount := by
  unfold updateParallelism; split <;> rfl
@[simp] theorem updateParallelism_blockedSend (cfg : Cfg) (p : Nat) (st : St) : (updateParallelism cfg p st).blockedSend = st.blockedSend := by
  unfold updateParallelism; split <;> rfl
@[simp] theorem updateParallelism_accuracyReached (cfg : Cfg) (p : Nat) (st : St) : (updateParallelism cfg p st).accuracyReached = st.accuracyReached := by
  unfold updateParallelism; split <;> rfl
@[simp] theorem updateParallelism_exitErr (cfg : Cfg) (p : Nat) (st : St) : (updateParallelism cfg p st).exitErr = st.exitErr := by
  unfold updateParallelism; split <;> rfl
@[simp] theorem updateParallelism_events (cfg : Cfg) (p : Nat) (st : St) : (updateParallelism cfg p st).events = st.events := by
  unfold updateParallelism; split <;> rfl

theorem maybeValidate_cases (cfg : Cfg) (env : JobEnv) (e : Nat) (st : St) :
    maybeValidate cfg env e st = st ∨
    maybeValidate cfg env e st = push st (.validateEv e) ∨
    maybeValidate cfg env e st = sendAccuracy (push st (.validateEv e)) := by
  unfold maybeValidate validateStep
  split
  · split
    · right; left; rfl
    · split
      · right; right; rfl
      · right; left; rfl
  · left; rfl

theorem selectStep_none (env : JobEnv) (e : Nat) (ps : Bool) (st : St)
    (h : (selectStep env e ps st).2 = none) :
    (selectStep env e ps st).1 = push st (.goalCheck e) ∧ st.accBuf = 0 := by
  unfold selectStep at h ⊢
  dsimp only at h ⊢
  split at h
  · simp at h
  · split at h
    · simp at h
    · simp_all

theorem selectStep_stop (env : JobEnv) (e : Nat) (ps : Bool) (st : St)
    (h : (selectStep env e ps st).2 = some .stoppedExit) :
    (selectStep env e ps st).1 =
      { push (push st (.goalCheck e)) (.breakStopEv e) with
          accuracyReached := true
          exitErr := some "job was force stopped" } := by
  unfold selectStep at h ⊢
  dsimp only at h ⊢
  split at h
  · simp_all
  · split at h <;> simp_all

theorem selectStep_acc (env : JobEnv) (e : Nat) (ps : Bool) (st : St)
    (h : (selectStep env e ps st).2 = some .accuracyExit) :
    (selectStep env e ps st).1 =
      { push (push st (.goalCheck e)) (.breakAccEv e) with
          accuracyReached := true
          accBuf := st.accBuf - 1 } ∧ 0 < st.accBuf := by
  unfold selectStep at h ⊢
  dsimp only at h ⊢
  split at h
  · simp_all
  · split at h <;> simp_all <;> split <;> simp_all

theorem selectStep_no_error (env : JobEnv) (e : Nat) (ps : Bool) (st : St)
    (h : (selectStep env e ps st).2 = some .errorExit) : False := by
  unfold selectStep at h
  dsimp only at h
  split at h
  · simp_all
  · split at h <;> simp_all

theorem validateStep_cases (g : ℚ) (ve : Bool) (a : ℚ) (st : St) :
    validateStep g ve a st = st ∨ validateStep g ve a st = sendAccuracy st := by
  unfold validateStep
  split
  · left; rfl
  · split
    · right; rfl
    · left; rfl

theorem maybeValidate_noSend (cfg : Cfg) (env : JobEnv) (e : Nat) (st : St)
    (hA : (env.epochEnv e).valAcc < cfg.goalAccuracy) :
    maybeValidate cfg env e st = st ∨
    maybeValidate cfg env e st = push st (.validateEv e) := by
  unfold maybeValidate validateStep
  split
  · split
    · right; rfl
    · split
      · exact absurd (le_of_lt hA) (by linarith)
      · right; rfl
  · left; rfl

theorem stopReady_none (env : JobEnv) (e : Nat) (h : env.stopAt = none) :
    stopReady env e = false := by
  unfold stopReady
  rw [h]

theorem afterSched_no_error (cfg : Cfg) (env : JobEnv) (e : Nat) (st : St)
    (h : (afterSched cfg env e st).2 = some .errorExit) : False := by
  unfold afterSched at h
  exact selectStep_no_error _ _ _ _ h

theorem afterSched_none (cfg : Cfg) (env : JobEnv) (e : Nat) (st : St)
    (h : (afterSched cfg env e st).2 = none) :
    (afterSched cfg env e st).1.accBuf = 0 ∧
    (afterSched cfg env e st).1.sendCount = st.sendCount ∧
    (afterSched cfg env e st).1.blockedSend = st.blockedSend ∧
    (afterSched cfg env e st).1.accuracyReached = st.accuracyReached ∧
    (afterSched cfg env e st).1.exitErr = st.exitErr := by
  unfold afterSched at h ⊢
  obtain ⟨h1, h2⟩ := selectStep_none _ _ _ _ h
  rw [h1]
  rcases maybeValidate_cases cfg env e (push st (.recvMerged e)) with hc | hc | hc <;>
    rw [hc] at h2 ⊢ <;> simp_all

theorem afterSched_stop (cfg : Cfg) (env : JobEnv) (e : Nat) (st : St)
    (hbuf : st.accBuf = 0)
    (h : (afterSched cfg env e st).2 = some .stoppedExit) :
    (afterSched cfg env e st).1.accuracyReached = true ∧
    (afterSched cfg env e st).1.exitErr = some "job was force stopped" ∧
    (afterSched cfg env e st).1.sendCount ≤ st.sendCount + 1 ∧
    (afterSched cfg env e st).1.blockedSend = st.blockedSend := by
  unfold afterSched at h ⊢
  have h1 := selectStep_stop _ _ _ _ h
  rw [h1]
  rcases maybeValidate_cases cfg env e (push st (.recvMerged e)) with hc | hc | hc <;>
    rw [hc] <;> simp_all

theorem afterSched_acc (cfg : Cfg) (env : JobEnv) (e : Nat) (st : St)
    (hbuf : st.accBuf = 0)
    (h : (afterSched cfg env e st).2 = some .accuracyExit) :
    (afterSched cfg env e st).1.accuracyReached = true ∧
    (afterSched cfg env e st).1.exitErr = st.exitErr ∧
    (afterSched cfg env e st).1.sendCount ≤ st.sendCount + 1 ∧
    (afterSched cfg env e st).1.blockedSend = st.blockedSend := by
  unfold afterSched at h ⊢
  obtain ⟨h1, h2⟩ := selectStep_acc _ _ _ _ h
  rw [h1]
  rcases maybeValidate_cases cfg env e (push st (.recvMerged e)) with hc | hc | hc <;>
    rw [hc] at h2 ⊢ <;> simp_all

theorem afterSched_proceeds (cfg : Cfg) (env : JobEnv) (e : Nat) (st : St)
    (hbuf : st.accBuf = 0)
    (hA : (env.epochEnv e).valAcc < cfg.goalAccuracy)
    (hS : env.stopAt = none) :
    (afterSched cfg env e st).2 = none := by
  unfold afterSched selectStep
  rcases maybeValidate_noSend cfg env e (push st (.recvMerged e)) hA with hc | hc <;>
    rw [hc] <;> dsimp only <;>
    simp [stopReady_none env e hS, hbuf]

theorem epochBody_error (cfg : Cfg) (env : JobEnv) (e : Nat) (st st' : St)
    (h : epochBody cfg env e st = (st', some .errorExit)) :
    st'.accBuf = st.accBuf ∧ st'.sendCount = st.sendCount ∧
    st'.blockedSend = st.blockedSend ∧
    st'.accuracyReached = st.accuracyReached := by
  unfold epochBody at h
  dsimp only at h
  split at h
  · obtain ⟨h1, -⟩ := Prod.mk.injEq .. ▸ h
    subst h1
    simp_all
  · split at h
    · split at h
      · simp_all
      · exact ((afterSched_no_error _ _ _ _ (by rw [h])).elim)
    · exact ((afterSched_no_error _ _ _ _ (by rw [h])).elim)

theorem epochBody_none (cfg : Cfg) (env : JobEnv) (e : Nat) (st st' : St)
    (hbuf : st.accBuf = 0)
    (h : epochBody cfg env e st = (st', none)) :
    st'.accBuf = 0 ∧ st'.sendCount = st.sendCount ∧
    st'.blockedSend = st.blockedSend ∧
    st'.accuracyReached = st.accuracyReached ∧ st'.exitErr = st.exitErr := by
  unfold epochBody at h
  dsimp only at h
  split at h
  · simp_all
  · split at h
    · split at h
      · obtain ⟨h1, -⟩ := Prod.mk.injEq .. ▸ h
        subst h1
        simp_all
      · have h2 : (afterSched cfg env e
            (updateParallelism cfg (env.epochEnv e).schedParallelism
              (push (push (push st (.trainEpoch e)) (.updateJobCall e))
                (.recvScheduler e (env.epochEnv e).schedParallelism)))).2 = none := by
          rw [h]
        have h1 : (afterSched cfg env e
            (updateParallelism cfg (env.epochEnv e).schedParallelism
              (push (push (push st (.trainEpoch e)) (.updateJobCall e))
                (.recvScheduler e (env.epochEnv e).schedParallelism)))).1 = st' := by
          rw [h]
        have specs := afterSched_none _ _ _ _ h2
        rw [h1] at specs
        simp_all
    · have h2 : (afterSched cfg env e (push st (.trainEpoch e))).2 = none := by rw [h]
      have h1 : (afterSched cfg env e (push st (.trainEpoch e))).1 = st' := by rw [h]
      have specs := afterSched_none _ _ _ _ h2
      rw [h1] at specs
      simp_all

theorem epochBody_stop (cfg : Cfg) (env : JobEnv) (e : Nat) (st st' : St)
    (hbuf : st.accBuf = 0)
    (h : epochBody cfg env e st = (st', some .stoppedExit)) :
    st'.accuracyReached = true ∧
    st'.exitErr = some "job was force stopped" ∧
    st'.sendCount ≤ st.sendCount + 1 ∧
    st'.blockedSend = st.blockedSend := by
  unfold epochBody at h
  dsimp only at h
  split at h
  · simp_all
  · split at h
    · split at h
      · simp_all
      · have h2 : (afterSched cfg env e
            (updateParallelism cfg (env.epochEnv e).schedParallelism
              (push (push (push st (.trainEpoch e)) (.updateJobCall e))
                (.recvScheduler e (env.epochEnv e).schedParallelism)))).2 =
            some .stoppedExit := by
          rw [h]
        have h1 : (afterSched cfg env e
            (updateParallelism cfg (env.epochEnv e).schedParallelism
              (push (push (push st (.trainEpoch e)) (.updateJobCall e))
                (.recvScheduler e (env.epochEnv e).schedParallelism)))).1 = st' := by
          rw [h]
        have specs := afterSched_stop _ _ _ _ (by simp [hbuf]) h2
        rw [h1] at specs
        simp_all
    · have h2 : (afterSched cfg env e (push st (.trainEpoch e))).2 =
          some .stoppedExit := by rw [h]
      have h1 : (afterSched cfg env e (push st (.trainEpoch e))).1 = st' := by rw [h]
      have specs := afterSched_stop _ _ _ _ (by simp [hbuf]) h2
      rw [h1] at specs
      simp_all

theorem epochBody_acc (cfg : Cfg) (env : JobEnv) (e : Nat) (st st' : St)
    (hbuf : st.accBuf = 0)
    (h : epochBody cfg env e st = (st', some .accuracyExit)) :
    st'.accuracyReached = true ∧
    st'.exitErr = st.exitErr ∧
    st'.sendCount ≤ st.sendCount + 1 ∧
    st'.blockedSend = st.blockedSend := by
  unfold epochBody at h
  dsimp only at h
  split at h
  · simp_all
  · split at h
    · split at h
      · simp_all
      · have h2 : (afterSched cfg env e
            (updateParallelism cfg (env.epochEnv e).schedParallelism
              (push (push (push st (.trainEpoch e)) (.updateJobCall e))
                (.recvScheduler e (env.epochEnv e).schedParallelism)))).2 =
            some .accuracyExit := by
          rw [h]
        have h1 : (afterSched cfg env e
            (updateParallelism cfg (env.epochEnv e).schedParallelism
              (push (push (push st (.trainEpoch e)) (.updateJobCall e))
                (.recvScheduler e (env.epochEnv e).schedParallelism)))).1 = st' := by
          rw [h]
        have specs := afterSched_acc _ _ _ _ (by simp [hbuf]) h2
        rw [h1] at specs
        simp_all
    · have h2 : (afterSched cfg env e (push st (.trainEpoch e))).2 =
          some .accuracyExit := by rw [h]
      have h1 : (afterSched cfg env e (push st (.trainEpoch e))).1 = st' := by rw [h]
      have specs := afterSched_acc _ _ _ _ (by simp [hbuf]) h2
      rw [h1] at specs
      simp_all

theorem epochBody_proceeds (cfg : Cfg) (env : JobEnv) (e : Nat) (st : St)
    (hbuf : st.accBuf = 0)
    (hT : (env.epochEnv e).trainErr = none)
    (hA : (env.epochEnv e).valAcc < cfg.goalAccuracy)
    (hS : env.stopAt = none) :
    (epochBody cfg env e st).2 = none := by
  unfold epochBody
  dsimp only
  rw [hT]
  dsimp only
  split
  · split
    · rfl
    · exact afterSched_proceeds _ _ _ _ (by simp [hbuf]) hA hS
  · exact afterSched_proceeds _ _ _ _ (by simp [hbuf]) hA hS

theorem selectStep_events (env : JobEnv) (e : Nat) (ps : Bool) (st : St) :
    (selectStep env e ps st).1.events = st.events ++ [.goalCheck e] ∨
    ((selectStep env e ps st).1.events =
        st.events ++ [.goalCheck e, .breakStopEv e] ∧
      (selectStep env e ps st).2 = some .stoppedExit) ∨
    (selectStep env e ps st).1.events =
        st.events ++ [.goalCheck e, .breakAccEv e] := by
  unfold selectStep
  dsimp only
  split
  · right; left; constructor <;> simp
  · split
    · right; right; simp
    · left; simp

theorem maybeValidate_events (cfg : Cfg) (env : JobEnv) (e : Nat) (st : St) :
    (maybeValidate cfg env e st).events = st.events ∨
    (maybeValidate cfg env e st).events = st.events ++ [.validateEv e] := by
  rcases maybeValidate_cases cfg env e st with hc | hc | hc <;> rw [hc] <;> simp

theorem afterSched_events (cfg : Cfg) (env : JobEnv) (e : Nat) (st : St) :
    ∃ l, (afterSched cfg env e st).1.events =
        st.events ++ TrainEvent.recvMerged e :: l ∧
      (∀ k, TrainEvent.trainEpoch k ∉ l) ∧
      TrainEvent.finalValidate ∉ l ∧
      TrainEvent.saveHistory ∉ l ∧
      (∀ k, TrainEvent.breakStopEv k ∈ l →
        (afterSched cfg env e st).2 = some .stoppedExit) := by
  unfold afterSched
  rcases maybeValidate_events cfg env e (push st (.recvMerged e)) with hm | hm <;>
    rcases selectStep_events env e (env.epochEnv e).pickStop
      (maybeValidate cfg env e (push st (.recvMerged e))) with hs | ⟨hs, ho⟩ | hs
  · exact ⟨[.goalCheck e], by simp [hs, hm], by simp, by simp, by simp, by simp⟩
  · refine ⟨[.goalCheck e, .breakStopEv e], by simp [hs, hm], by simp, by simp,
      by simp, ?_⟩
    intro k hk
    exact ho
  · exact ⟨[.goalCheck e, .breakAccEv e], by simp [hs, hm], by simp, by simp,
      by simp, by simp⟩
  · exact ⟨[.validateEv e, .goalCheck e], by simp [hs, hm], by simp, by simp,
      by simp, by simp⟩
  · refine ⟨[.validateEv e, .goalCheck e, .breakStopEv e], by simp [hs, hm],
      by simp, by simp, by simp, ?_⟩
    intro k hk
    exact ho
  · exact ⟨[.validateEv e, .goalCheck e, .breakAccEv e], by simp [hs, hm],
      by simp, by simp, by simp, by simp⟩

theorem epochBody_events (cfg : Cfg) (env : JobEnv) (e : Nat) (st : St) :
    ∃ l, (epochBody cfg env e st).1.events =
        st.events ++ TrainEvent.trainEpoch e :: l ∧
      (∀ k, TrainEvent.trainEpoch k ∉ l) ∧
      TrainEvent.finalValidate ∉ l ∧
      TrainEvent.saveHistory ∉ l ∧
      (∀ k, TrainEvent.breakStopEv k ∈ l →
        (epochBody cfg env e st).2 = some .stoppedExit) := by
  unfold epochBody
  dsimp only
  split
  · exact ⟨[], by simp, by simp, by simp, by simp, by simp⟩
  · split
    · split
      · exact ⟨[.updateJobCall e, .schedulerWarn e], by simp, by simp, by simp,
          by simp, by simp⟩
      · obtain ⟨l, h1, h2, h3, h4, h5⟩ := afterSched_events cfg env e
          (updateParallelism cfg (env.epochEnv e).schedParallelism
            (push (push (push st (.trainEpoch e)) (.updateJobCall e))
              (.recvScheduler e (env.epochEnv e).schedParallelism)))
        refine ⟨.updateJobCall e ::
            .recvScheduler e (env.epochEnv e).schedParallelism ::
            .recvMerged e :: l, ?_, ?_, ?_, ?_, ?_⟩
        · simp only [h1]; simp
        · intro k; simp_all
        · simp_all
        · simp_all
        · intro k hk
          simp only [List.mem_cons] at hk
          rcases hk with hk | hk | hk | hk <;> first
            | exact absurd hk (by simp)
            | exact h5 k hk
    · obtain ⟨l, h1, h2, h3, h4, h5⟩ :=
        afterSched_events cfg env e (push st (.trainEpoch e))
      refine ⟨.recvMerged e :: l, ?_, ?_, ?_, ?_, ?_⟩
      · simp only [h1]; simp
      · intro k; simp_all
      · simp_all
      · simp_all
      · intro k hk
        simp only [List.mem_cons] at hk
        rcases hk with hk | hk <;> first
          | exact absurd hk (by simp)
          | exact h5 k hk

theorem countTrainEpochs_append (l1 l2 : List TrainEvent) :
    countTrainEpochs (l1 ++ l2) = countTrainEpochs l1 + countTrainEpochs l2 :=
  List.countP_append _ _ _

theorem countTrainEpochs_zero (l : List TrainEvent)
    (h : ∀ k, TrainEvent.trainEpoch k ∉ l) : countTrainEpochs l = 0 := by
  unfold countTrainEpochs
  rw [List.countP_eq_zero]
  intro a ha
  cases a <;> simp_all

theorem epochBody_count (cfg : Cfg) (env : JobEnv) (e : Nat) (st : St) :
    countTrainEpochs (epochBody cfg env e st).1.events =
      countTrainEpochs st.events + 1 := by
  obtain ⟨l, h1, h2, -, -, -⟩ := epochBody_events cfg env e st
  rw [h1, countTrainEpochs_append]
  have : countTrainEpochs (TrainEvent.trainEpoch e :: l) = 1 := by
    unfold countTrainEpochs
    rw [List.countP_cons]
    have hz := countTrainEpochs_zero l h2
    unfold countTrainEpochs at hz
    simp [hz]
  rw [this]

theorem selectStep_no_completed (env : JobEnv) (e : Nat) (ps : Bool) (st : St)
    (h : (selectStep env e ps st).2 = some .completed) : False := by
  unfold selectStep at h
  dsimp only at h
  split at h
  · simp_all
  · split at h <;> simp_all

theorem afterSched_no_completed (cfg : Cfg) (env : JobEnv) (e : Nat) (st : St)
    (h : (afterSched cfg env e st).2 = some .completed) : False := by
  unfold afterSched at h
  exact selectStep_no_completed _ _ _ _ h

theorem epochBody_not_completed (cfg : Cfg) (env : JobEnv) (e : Nat) (st st' : St)
    (h : epochBody cfg env e st = (st', some .completed)) : False := by
  unfold epochBody at h
  dsimp only at h
  split at h
  · simp_all
  · split at h
    · split at h
      · simp_all
      · exact afterSched_no_completed _ _ _ _ (by rw [h])
    · exact afterSched_no_completed _ _ _ _ (by rw [h])

theorem trainLoop_complete_count (cfg : Cfg) (env : JobEnv)
    (hT : ∀ e, (env.epochEnv e).trainErr = none)
    (hA : ∀ e, (env.epochEnv e).valAcc < cfg.goalAccuracy)
    (hS : env.stopAt = none) :
    ∀ fuel e st, st.accBuf = 0 →
      (trainLoop cfg env fuel e st).2 = .completed ∧
      (trainLoop cfg env fuel e st).1.accBuf = 0 ∧
      countTrainEpochs (trainLoop cfg env fuel e st).1.events =
        countTrainEpochs st.events + fuel := by
  intro fuel
  induction fuel with
  | zero => intro e st h; exact ⟨rfl, h, rfl⟩
  | succ n ih =>
    intro e st hbuf
    have hnone := epochBody_proceeds cfg env e st hbuf (hT e) (hA e) hS
    rcases hE : epochBody cfg env e st with ⟨st', out⟩
    rw [hE] at hnone
    dsimp at hnone
    subst hnone
    have hred : trainLoop cfg env (n + 1) e st = trainLoop cfg env n (e + 1) st' := by
      simp only [trainLoop]
      rw [hE]
    have hspec := epochBody_none cfg env e st st' hbuf hE
    have hcount := epochBody_count cfg env e st
    rw [hE] at hcount
    dsimp at hcount
    obtain ⟨c1, c2, c3⟩ := ih (e + 1) st' hspec.1
    rw [hred]
    refine ⟨c1, c2, ?_⟩
    rw [c3, hcount]
    omega

theorem trainLoop_clean (cfg : Cfg) (env : JobEnv) :
    ∀ fuel e st, st.accBuf = 0 → st.blockedSend = false →
      st.sendCount = 0 → st.accuracyReached = false →
      (trainLoop cfg env fuel e st).1.blockedSend = false ∧
      (trainLoop cfg env fuel e st).1.sendCount ≤ 1 ∧
      ((trainLoop cfg env fuel e st).2 = .completed →
        (trainLoop cfg env fuel e st).1.accBuf = 0 ∧
        (trainLoop cfg env fuel e st).1.sendCount = 0 ∧
        (trainLoop cfg env fuel e st).1.accuracyReached = false) ∧
      ((trainLoop cfg env fuel e st).2 = .stoppedExit →
        (trainLoop cfg env fuel e st).1.accuracyReached = true ∧
        (trainLoop cfg env fuel e st).1.exitErr = some "job was force stopped") ∧
      ((trainLoop cfg env fuel e st).2 = .accuracyExit →
        (trainLoop cfg env fuel e st).1.accuracyReached = true) ∧
      ((trainLoop cfg env fuel e st).2 = .errorExit →
        (trainLoop cfg env fuel e st).1.accuracyReached = false ∧
        (trainLoop cfg env fuel e st).1.sendCount = 0 ∧
        (trainLoop cfg env fuel e st).1.accBuf = 0) := by
  intro fuel
  induction fuel with
  | zero =>
    intro e st h1 h2 h3 h4
    simp only [trainLoop]
    exact ⟨h2, by omega, fun _ => ⟨h1, h3, h4⟩, by simp, by simp, by simp⟩
  | succ n ih =>
    intro e st hbuf hbl hsc har
    rcases hE : epochBody cfg env e st with ⟨st', out⟩
    have hred : trainLoop cfg env (n + 1) e st =
        match (st', out) with
        | (st', none) => trainLoop cfg env n (e + 1) st'
        | (st', some ex) => (st', ex) := by
      simp only [trainLoop]
      rw [hE]
    cases out with
    | none =>
      have hspec := epochBody_none cfg env e st st' hbuf hE
      rw [hred]
      dsimp only
      exact ih (e + 1) st' hspec.1 (hspec.2.2.1.trans hbl)
        (hspec.2.1.trans hsc) (hspec.2.2.2.1.trans har)
    | some ex =>
      rw [hred]
      dsimp only
      cases ex with
      | completed =>
        exact (epochBody_not_completed cfg env e st st' hE).elim
      | stoppedExit =>
        have hspec := epochBody_stop cfg env e st st' hbuf hE
        exact ⟨hspec.2.2.2.trans hbl, by omega, by simp, fun _ => ⟨hspec.1, hspec.2.1⟩,
          by simp, by simp⟩
      | accuracyExit =>
        have hspec := epochBody_acc cfg env e st st' hbuf hE
        exact ⟨hspec.2.2.2.trans hbl, by omega, by simp, by simp,
          fun _ => hspec.1, by simp⟩
      | errorExit =>
        have hspec := epochBody_error cfg env e st st' hE
        exact ⟨hspec.2.2.1.trans hbl, by omega, by simp, by simp, by simp,
          fun _ => ⟨hspec.2.2.2.trans har, hspec.2.1.trans hsc, hspec.1.trans hbuf⟩⟩

@[simp] theorem teardown_sendCount (st : St) : (teardown st).sendCount = st.sendCount := rfl
@[simp] theorem teardown_blockedSend (st : St) : (teardown st).blockedSend = st.blockedSend := rfl
@[simp] theorem teardown_accuracyReached (st : St) :
    (teardown st).accuracyReached = st.accuracyReached := rfl
@[simp] theorem teardown_exitErr (st : St) : (teardown st).exitErr = st.exitErr := rfl
@[simp] theorem teardown_events (st : St) :
    (teardown st).events =
      st.events ++ [.clearTensors, .closePool, .jobFinished st.exitErr] := by
  simp [teardown]

theorem trainLoop_events (cfg : Cfg) (env : JobEnv) :
    ∀ fuel e st, ∃ l,
      (trainLoop cfg env fuel e st).1.events = st.events ++ l ∧
      TrainEvent.finalValidate ∉ l ∧
      TrainEvent.saveHistory ∉ l ∧
      (∀ k, TrainEvent.breakStopEv k ∈ l →
        (trainLoop cfg env fuel e st).2 = .stoppedExit) := by
  intro fuel
  induction fuel with
  | zero =>
    intro e st
    exact ⟨[], by simp [trainLoop], by simp, by simp, by simp [trainLoop]⟩
  | succ n ih =>
    intro e st
    rcases hE : epochBody cfg env e st with ⟨st', out⟩
    obtain ⟨l0, b1, -, b3, b4, b5⟩ := epochBody_events cfg env e st
    rw [hE] at b1 b5
    dsimp at b1 b5
    have hred : trainLoop cfg env (n + 1) e st =
        match (st', out) with
        | (st', none) => trainLoop cfg env n (e + 1) st'
        | (st', some ex) => (st', ex) := by
      simp only [trainLoop]
      rw [hE]
    cases out with
    | none =>
      obtain ⟨l1, c1, c2, c3, c4⟩ := ih (e + 1) st'
      rw [hred]
      dsimp only
      refine ⟨(TrainEvent.trainEpoch e :: l0) ++ l1, ?_, ?_, ?_, ?_⟩
      · rw [c1, b1]; simp
      · simp_all
      · simp_all
      · intro k hk
        rcases List.mem_append.mp hk with hk | hk
        · rcases List.mem_cons.mp hk with hk | hk
          · exact absurd hk (by simp)
          · exact absurd (b5 k hk) (by simp)
        · exact c4 k hk
    | some ex =>
      rw [hred]
      dsimp only
      refine ⟨TrainEvent.trainEpoch e :: l0, b1, ?_, ?_, ?_⟩
      · simp_all
      · simp_all
      · intro k hk
        rcases List.mem_cons.mp hk with hk | hk
        · exact absurd hk (by simp)
        · have := b5 k hk
          simp only [Option.some.injEq] at this
          rw [this]

theorem finishRun_events (cfg : Cfg) (env : JobEnv) (st : St) (ex : LoopExit) :
    ∃ l2, (finishRun cfg env st ex).events = st.events ++ l2 ∧
      (∀ k, TrainEvent.breakStopEv k ∉ l2) ∧
      (∀ k, TrainEvent.trainEpoch k ∉ l2) := by
  cases ex with
  | errorExit =>
    exact ⟨[.clearTensors, .closePool, .jobFinished st.exitErr], by simp [finishRun],
      by intro k; simp, by intro k; simp⟩
  | completed =>
    simp only [finishRun]
    split
    · rcases validateStep_cases cfg.goalAccuracy env.finalValErr env.finalValAcc
        (push st .finalValidate) with hv | hv <;>
        exact ⟨[.finalValidate, .saveHistory, .clearTensors, .closePool,
          .jobFinished st.exitErr], by simp [hv], by intro k; simp, by intro k; simp⟩
    · exact ⟨[.saveHistory, .clearTensors, .closePool, .jobFinished st.exitErr],
        by simp, by intro k; simp, by intro k; simp⟩
  | stoppedExit =>
    simp only [finishRun]
    split
    · rcases validateStep_cases cfg.goalAccuracy env.finalValErr env.finalValAcc
        (push st .finalValidate) with hv | hv <;>
        exact ⟨[.finalValidate, .saveHistory, .clearTensors, .closePool,
          .jobFinished st.exitErr], by simp [hv], by intro k; simp, by intro k; simp⟩
    · exact ⟨[.saveHistory, .clearTensors, .closePool, .jobFinished st.exitErr],
        by simp, by intro k; simp, by intro k; simp⟩
  | accuracyExit =>
    simp only [finishRun]
    split
    · rcases validateStep_cases cfg.goalAccuracy env.finalValErr env.finalValAcc
        (push st .finalValidate) with hv | hv <;>
        exact ⟨[.finalValidate, .saveHistory, .clearTensors, .closePool,
          .jobFinished st.exitErr], by simp [hv], by intro k; simp, by intro k; simp⟩
    · exact ⟨[.saveHistory, .clearTensors, .closePool, .jobFinished st.exitErr],
        by simp, by intro k; simp, by intro k; simp⟩

theorem trainRun_stop_spec (cfg : Cfg) (env : JobEnv) (k : Nat)
    (h : TrainEvent.breakStopEv k ∈ (trainRun cfg env).events) :
    (trainRun cfg env).exitErr = some "job was force stopped" ∧
    (trainRun cfg env).accuracyReached = true ∧
    TrainEvent.finalValidate ∉ (trainRun cfg env).events ∧
    TrainEvent.saveHistory ∈ (trainRun cfg env).events ∧
    TrainEvent.clearTensors ∈ (trainRun cfg env).events ∧
    TrainEvent.closePool ∈ (trainRun cfg env).events ∧
    TrainEvent.jobFinished (some "job was force stopped") ∈
      (trainRun cfg env).events := by
  unfold trainRun at h ⊢
  rcases hI : env.initErr with - | m
  case some =>
    try rw [hI] at h
    try dsimp only at h
    simp [initSt] at h
  case none =>
    try rw [hI] at h
    try rw [hI]
    dsimp only at h ⊢
    rcases hL : trainLoop cfg env cfg.epochs 1 (initSt cfg) with ⟨st, ex⟩
    try rw [hL] at h
    try rw [hL]
    dsimp only at h ⊢
    obtain ⟨l, e1, e2, e3, e4⟩ := trainLoop_events cfg env cfg.epochs 1 (initSt cfg)
    rw [hL] at e1 e4
    dsimp at e1 e4
    have hclean := trainLoop_clean cfg env cfg.epochs 1 (initSt cfg) rfl rfl rfl rfl
    rw [hL] at hclean
    dsimp at hclean
    have hstl : st.events = l := by
      rw [e1]; simp [initSt]
    obtain ⟨l2, f1, f2, -⟩ := finishRun_events cfg env st ex
    have hin : TrainEvent.breakStopEv k ∈ l := by
      rw [f1, hstl] at h
      rcases List.mem_append.mp h with hk | hk
      · exact hk
      · exact absurd hk (f2 k)
    have hex : ex = .stoppedExit := e4 k hin
    subst hex
    have hs := hclean.2.2.2.1 rfl
    simp [finishRun, hs.1, hs.2, hstl, e2]

theorem trainRun_clean_spec (cfg : Cfg) (env : JobEnv) :
    (trainRun cfg env).sendCount ≤ 1 ∧ (trainRun cfg env).blockedSend = false := by
  unfold trainRun
  rcases hI : env.initErr with - | m
  case some =>
    try rw [hI]
    try dsimp only
    simp [initSt]
  case none =>
    try rw [hI]
    dsimp only
    rcases hL : trainLoop cfg env cfg.epochs 1 (initSt cfg) with ⟨st, ex⟩
    try rw [hL]
    dsimp only
    have hclean := trainLoop_clean cfg env cfg.epochs 1 (initSt cfg) rfl rfl rfl rfl
    rw [hL] at hclean
    dsimp at hclean
    cases ex with
    | errorExit =>
      simp only [finishRun, teardown_sendCount, teardown_blockedSend]
      exact ⟨hclean.2.1, hclean.1⟩
    | completed =>
      have hc := hclean.2.2.1 rfl
      simp only [finishRun, if_pos hc.2.2, teardown_sendCount, teardown_blockedSend,
        push_sendCount, push_blockedSend]
      rcases validateStep_cases cfg.goalAccuracy env.finalValErr env.finalValAcc
          (push st .finalValidate) with hv | hv <;> rw [hv]
      · simp only [push_sendCount, push_blockedSend]
        exact ⟨hclean.2.1, hclean.1⟩
      · simp only [sendAccuracy_sendCount, sendAccuracy_blockedSend, push_sendCount,
          push_blockedSend, push_accBuf, hc.2.1, hc.1, hclean.1]
        simp
    | stoppedExit =>
      have hs := hclean.2.2.2.1 rfl
      have hcond : ¬(st.accuracyReached = false) := by rw [hs.1]; simp
      simp only [finishRun, if_neg hcond, teardown_sendCount, teardown_blockedSend,
        push_sendCount, push_blockedSend]
      exact ⟨hclean.2.1, hclean.1⟩
    | accuracyExit =>
      have hs := hclean.2.2.2.2.1 rfl
      have hcond : ¬(st.accuracyReached = false) := by rw [hs]; simp
      simp only [finishRun, if_neg hcond, teardown_sendCount, teardown_blockedSend,
        push_sendCount, push_blockedSend]
      exact ⟨hclean.2.1, hclean.1⟩

theorem trainRun_epoch_count (cfg : Cfg) (env : JobEnv)
    (hI : env.initErr = none)
    (hT : ∀ e, (env.epochEnv e).trainErr = none)
    (hA : ∀ e, (env.epochEnv e).valAcc < cfg.goalAccuracy)
    (hS : env.stopAt = none) :
    countTrainEpochs (trainRun cfg env).events = cfg.epochs := by
  unfold trainRun
  rw [hI]
  dsimp only
  rcases hL : trainLoop cfg env cfg.epochs 1 (initSt cfg) with ⟨st, ex⟩
  try rw [hL]
  dsimp only
  have hcc := trainLoop_complete_count cfg env hT hA hS cfg.epochs 1 (initSt cfg) rfl
  rw [hL] at hcc
  dsimp at hcc
  obtain ⟨hex, hbuf, hcount⟩ := hcc
  subst hex
  obtain ⟨l2, f1, -, f3⟩ := finishRun_events cfg env st .completed
  rw [f1, countTrainEpochs_append, hcount, countTrainEpochs_zero l2 f3]
  simp [initSt, countTrainEpochs]

theorem psLoop_count (env : PsEnv) (hR : ∀ e, (env.schedResp e).isSome = true) :
    ∀ fuel e par, countPsEpochs (psLoop env fuel e par) = fuel := by
  intro fuel
  induction fuel with
  | zero => intro e par; simp [psLoop, countPsEpochs]
  | succ n ih =>
    intro e par
    rcases hr : env.schedResp e with - | p
    · exact absurd (hR e) (by simp [hr])
    · simp only [psLoop, hr]
      simp only [countPsEpochs, List.countP_append, List.countP_cons]
      have := ih (psEpochAdvance e) p
      unfold countPsEpochs at this
      simp [this]
      omega


/-! ### C1 / C2 / C5 / C7 / C8 / C10 -/

/-- C1: evidence for a code bug.  When `UpdateJob` fails at epoch 1
(with per-epoch validation configured), the `continue` statement in
`Train` skips the rest of that epoch's protocol: the trace contains the
warning but no `merged` receive, no validation and no goal/stop check
for epoch 1, and jumps straight to epoch 2 — whereas in the identical
run without the scheduler failure, epoch 1 does receive `merged` and
validates.  (Skipping the receive also leaves the Merger goroutine
blocked on its unbuffered send on `merged`, so the next epoch's
`startMerger` handoff would deadlock in the real program.) -/
theorem C1_scheduler_failure_skips_epoch_protocol :
    TrainEvent.schedulerWarn 1 ∈ (trainRun cfgVal envSchedFail).events ∧
    TrainEvent.recvMerged 1 ∉ (trainRun cfgVal envSchedFail).events ∧
    TrainEvent.validateEv 1 ∉ (trainRun cfgVal envSchedFail).events ∧
    TrainEvent.goalCheck 1 ∉ (trainRun cfgVal envSchedFail).events ∧
    TrainEvent.trainEpoch 2 ∈ (trainRun cfgVal envSchedFail).events ∧
    TrainEvent.validateEv 1 ∈ (trainRun cfgVal envSchedOk).events ∧
    TrainEvent.recvMerged 1 ∈ (trainRun cfgVal envSchedOk).events := by
  decide

/-- C2 (counterexample): in a concrete benign two-epoch run, the
controller requests `UpdateJob` (and receives on `schedulerCh`)
*before* it receives the `merged` signal of epoch 1 — the claim's order
(merged before scheduler negotiation) is the reverse of the code's. -/
theorem C2_updateJob_before_merged_counterexample :
    (trainRun cfgTwo envSchedOk).events.indexOf (.updateJobCall 1) <
      (trainRun cfgTwo envSchedOk).events.indexOf (.recvMerged 1) := by
  decide

/-- C2 (amended): in every epoch in which renegotiation happens
(`!static`, not the last epoch, `UpdateJob` succeeds), the controller
first requests `UpdateJob` and awaits `schedulerCh`, and only then
receives the `merged` signal; validation and the goal/stop check come
after that. -/
theorem C2_sched_negotiation_precedes_merged (cfg : Cfg) (env : JobEnv)
    (e : Nat) (st : St)
    (h1 : (env.epochEnv e).trainErr = none) (h2 : cfg.static = false)
    (h3 : e < cfg.epochs) (h4 : (env.epochEnv e).schedErr = false) :
    ∃ l, (epochBody cfg env e st).1.events =
      st.events ++ [.trainEpoch e, .updateJobCall e,
        .recvScheduler e (env.epochEnv e).schedParallelism,
        .recvMerged e] ++ l := by
  unfold epochBody
  dsimp only
  rw [h1]
  dsimp only
  rw [if_pos ⟨h2, h3⟩, if_neg (by rw [h4]; simp)]
  obtain ⟨l, a1, -, -, -, -⟩ := afterSched_events cfg env e
    (updateParallelism cfg (env.epochEnv e).schedParallelism
      (push (push (push st (.trainEpoch e)) (.updateJobCall e))
        (.recvScheduler e (env.epochEnv e).schedParallelism)))
  exact ⟨l, by rw [a1]; simp⟩

/-- C2 (witness). -/
theorem C2_sched_negotiation_precedes_merged_witness :
    ∃ l, (epochBody cfgTwo envSchedOk 1 (initSt cfgTwo)).1.events =
      (initSt cfgTwo).events ++ [.trainEpoch 1, .updateJobCall 1,
        .recvScheduler 1 (envSchedOk.epochEnv 1).schedParallelism,
        .recvMerged 1] ++ l :=
  C2_sched_negotiation_precedes_merged cfgTwo envSchedOk 1 (initSt cfgTwo)
    rfl rfl (by decide) rfl

/-- C5: the per-job epoch loop terminates after exactly
`Parameters.Epochs` training epochs when nothing exits it early (no
init/train error, no goal-accuracy hit, no force stop), in both
epoch-loop implementations: `TrainJob.Train`, and
`ParameterServer.serveTrainJob` whose epoch advance is performed by the
(spec-modelled) parameter-server API whenever the scheduler answers
every renegotiation. -/
theorem C5_epoch_loop_executes_all_epochs :
    (∀ cfg env, env.initErr = none →
      (∀ e, (env.epochEnv e).trainErr = none) →
      (∀ e, (env.epochEnv e).valAcc < cfg.goalAccuracy) →
      env.stopAt = none →
      countTrainEpochs (trainRun cfg env).events = cfg.epochs) ∧
    (∀ epochs psenv, (∀ e, (psenv.schedResp e).isSome = true) →
      countPsEpochs (serveTrainJob epochs psenv) = epochs) := by
  constructor
  · intro cfg env hI hT hA hS
    exact trainRun_epoch_count cfg env hI hT hA hS
  · intro epochs psenv hR
    exact psLoop_count psenv hR epochs 1 psenv.initParallelism

/-- C5 (witness). -/
theorem C5_epoch_loop_executes_all_epochs_witness :
    countTrainEpochs (trainRun cfgTwo envSchedOk).events = cfgTwo.epochs ∧
    countPsEpochs (serveTrainJob 2 psEnvOk) = 2 :=
  ⟨C5_epoch_loop_executes_all_epochs.1 cfgTwo envSchedOk rfl (fun _ => rfl)
      (fun _ => by norm_num [envSchedOk, cfgTwo]) rfl,
    C5_epoch_loop_executes_all_epochs.2 2 psEnvOk (fun _ => rfl)⟩

/-- C7: over the whole lifetime of a job, at most one value is ever
sent on `accuracyCh`, and no send on it — including the one a final
post-loop validation may perform with no receiver waiting — ever finds
the capacity-1 buffer full, so no sender ever blocks. -/
theorem C7_accuracy_notification_at_most_once (cfg : Cfg) (env : JobEnv) :
    (trainRun cfg env).sendCount ≤ 1 ∧
    (trainRun cfg env).blockedSend = false :=
  trainRun_clean_spec cfg env

/-- C8: whenever the stop signal is observed at an epoch boundary, the
main loop exits with `exitErr = "job was force stopped"`, the training
history is still persisted, and the teardown runs: the job tensors are
deleted, the redis pool is closed, and `JobFinished` is emitted
carrying that error. -/
theorem C8_force_stop_exit (cfg : Cfg) (env : JobEnv) (e : Nat)
    (h : TrainEvent.breakStopEv e ∈ (trainRun cfg env).events) :
    (trainRun cfg env).exitErr = some "job was force stopped" ∧
    TrainEvent.saveHistory ∈ (trainRun cfg env).events ∧
    TrainEvent.jobFinished (some "job was force stopped") ∈
      (trainRun cfg env).events ∧
    TrainEvent.clearTensors ∈ (trainRun cfg env).events ∧
    TrainEvent.closePool ∈ (trainRun cfg env).events := by
  obtain ⟨s1, -, -, s4, s5, s6, s7⟩ := trainRun_stop_spec cfg env e h
  exact ⟨s1, s4, s7, s5, s6⟩

/-- C8 (witness). -/
theorem C8_force_stop_exit_witness :
    (trainRun cfgTwo envStop).exitErr = some "job was force stopped" ∧
    TrainEvent.saveHistory ∈ (trainRun cfgTwo envStop).events ∧
    TrainEvent.jobFinished (some "job was force stopped") ∈
      (trainRun cfgTwo envStop).events ∧
    TrainEvent.clearTensors ∈ (trainRun cfgTwo envStop).events ∧
    TrainEvent.closePool ∈ (trainRun cfgTwo envStop).events :=
  C8_force_stop_exit cfgTwo envStop 1 (by decide)

/-- C10: observing the force-stop signal sets `accuracyReached`, so the
final post-loop validation is skipped — no validation fan-out happens
between the stop and the history persistence. -/
theorem C10_force_stop_skips_final_validation (cfg : Cfg) (env : JobEnv)
    (e : Nat)
    (h : TrainEvent.breakStopEv e ∈ (trainRun cfg env).events) :
    (trainRun cfg env).accuracyReached = true ∧
    TrainEvent.finalValidate ∉ (trainRun cfg env).events ∧
    TrainEvent.saveHistory ∈ (trainRun cfg env).events := by
  obtain ⟨-, s2, s3, s4, -, -, -⟩ := trainRun_stop_spec cfg env e h
  exact ⟨s2, s3, s4⟩

/-- C10 (witness). -/
theorem C10_force_stop_skips_final_validation_witness :
    (trainRun cfgVal envStop).accuracyReached = true ∧
    TrainEvent.finalValidate ∉ (trainRun cfgVal envStop).events ∧
    TrainEvent.saveHistory ∈ (trainRun cfgVal envStop).events :=
  C10_force_stop_skips_final_validation cfgVal envStop 1 (by decide)

/-! ### C9 -/

/-- C9: `validateTrainRequest` returns an error if and only if at least
one of the five checks fails — batch size outside `(0, 1024]`,
non-positive epochs, non-positive learning rate, missing dataset, or
missing function — and when it does, the returned multi-error carries
exactly the messages of the failed checks, in source order; a request
passing all checks is accepted (`nil` error). -/
theorem C9_validateTrainRequest_characterization (req : TrainRequest) (dsErr mkErr fnErr : Bool) :
    (validateTrainRequest req dsErr mkErr fnErr = none ↔
      (0 < req.batchSize ∧ req.batchSize ≤ maxBatchSize) ∧ 0 < req.epochs ∧
        0 < req.lr ∧ (datasetExists dsErr).1 = true ∧
        (functionExists mkErr fnErr).1 = true) ∧
    (∀ msgs, validateTrainRequest req dsErr mkErr fnErr = some msgs →
      msgs =
        (if ¬(0 < req.batchSize ∧ req.batchSize ≤ maxBatchSize)
          then [batchMsg] else []) ++
        (if ¬(0 < req.epochs) then [epochsMsg] else []) ++
        (if ¬(0 < req.lr) then [lrMsg] else []) ++
        (if ¬((datasetExists dsErr).1 = true) then [datasetMsg req.dataset] else []) ++
        (if ¬((functionExists mkErr fnErr).1 = true)
          then [functionMsg req.functionName] else [])) := by
  have hb : (req.batchSize ≤ 0 ∨ maxBatchSize < req.batchSize) ↔
      ¬(0 < req.batchSize ∧ req.batchSize ≤ maxBatchSize) := by omega
  have hep : (req.epochs ≤ 0) ↔ ¬(0 < req.epochs) := not_lt.symm
  have hlr : (req.lr ≤ 0) ↔ ¬(0 < req.lr) := not_lt.symm
  have dsIff : ((datasetExists dsErr).2 = true ∨ (datasetExists dsErr).1 = false) ↔
      ¬((datasetExists dsErr).1 = true) := by
    cases dsErr <;> simp [datasetExists]
  have fnIff : ((functionExists mkErr fnErr).2 = true ∨
        (functionExists mkErr fnErr).1 = false) ↔
      ¬((functionExists mkErr fnErr).1 = true) := by
    cases mkErr <;> cases fnErr <;> simp [functionExists]
  unfold validateTrainRequest
  dsimp only
  simp only [hb, hep, hlr, dsIff, fnIff]
  by_cases c1 : 0 < req.batchSize ∧ req.batchSize ≤ maxBatchSize <;>
    by_cases c2 : 0 < req.epochs <;>
    by_cases c3 : 0 < req.lr <;>
    by_cases c4 : (datasetExists dsErr).1 = true <;>
    by_cases c5 : (functionExists mkErr fnErr).1 = true <;>
    simp [c1, c2, c3, c4, c5]


/-- C9 (witness): a request failing all five checks aggregates all five
messages. -/
theorem C9_validateTrainRequest_characterization_witness :
    [batchMsg, epochsMsg, lrMsg, datasetMsg "d", functionMsg "f"] =
      (if ¬((0 : Int) < (0 : Int) ∧ (0 : Int) ≤ maxBatchSize)
        then [batchMsg] else []) ++
      (if ¬((0 : Int) < (0 : Int)) then [epochsMsg] else []) ++
      (if ¬((0 : ℚ) < (0 : ℚ)) then [lrMsg] else []) ++
      (if ¬((datasetExists true).1 = true) then [datasetMsg "d"] else []) ++
      (if ¬((functionExists true true).1 = true)
        then [functionMsg "f"] else []) :=
  (C9_validateTrainRequest_characterization ⟨0, 0, 0, "d", "f"⟩
    true true true).2 _ rfl

end KubeML
